import Mathlib

/-!
Verification of the reasoning-extraction, templating and retrieval logic of
the `ai-foundry-e2e-lab` notebooks.

The embedding models Python strings as `List Char`:
  * `strFind s t` is Python `s.find(t)` (`none` for `-1`);
  * `containsSub s t` is Python `t in s`;
  * `pyStrip` is `str.strip()`, `pyLower` is `str.lower()` (ASCII), and
    `pyWords` is argumentless `str.split()`;
  * Python slices `s[a:b]` and `s[a:]` become `(s.drop a).take (b - a)`
    and `s.drop a` (`Nat` subtraction mirrors the empty slice when `b < a`).

`extractReasoning` embeds the tag-splitting branch of
`plan_trip_with_reasoning` (DeepSeek-R1 notebook); `plan_trip_with_reasoning`
embeds the whole function over an injected transport, its `try/except` block
turning any transport error into a normal `none` return.  `renderScan` models
the Template Renderer of the spec (the notebook inlines `str.format`).
`retrieve_tips` embeds the retrieval tool of the health-agent notebook.
-/

namespace FoundryLab

/-- The reasoning open tag used by `plan_trip_with_reasoning`. -/
def openTag : List Char := "<thinking>".data

/-- The reasoning close tag used by `plan_trip_with_reasoning`. -/
def closeTag : List Char := "</thinking>".data

/-- Python `s.find(t)`: the least index at which `t` occurs in `s`,
`none` when `t` does not occur (Python returns `-1`). -/
def strFind (s t : List Char) : Option Nat :=
  match s with
  | [] => if t.isPrefixOf ([] : List Char) then some 0 else none
  | c :: s' =>
    if t.isPrefixOf (c :: s') then some 0
    else (strFind s' t).map (· + 1)

/-- Python `t in s`: substring containment, as the code's `"<thinking>" in content`. -/
def containsSub (s t : List Char) : Bool := (strFind s t).isSome

/-- Python `str.strip()`: drop leading and trailing whitespace. -/
def pyStrip (s : List Char) : List Char :=
  ((s.dropWhile Char.isWhitespace).reverse.dropWhile Char.isWhitespace).reverse

/-- The value `plan_trip_with_reasoning` builds from the model's text:
either the structured `{thinking, answer, full_response}` dictionary or the
plain content string returned unchanged. -/
inductive TripSplit where
  | structured (thinking answer full_response : List Char)
  | plain (content : List Char)
deriving DecidableEq

/-- The opaque error raised by the injected transport (network, auth, quota). -/
structure TransportError where
  message : List Char
deriving DecidableEq

/-- The tag-splitting tail of `plan_trip_with_reasoning` (part_000, lines
144-157), translated clause by clause:

    if show_thinking and "<thinking>" in content and "</thinking>" in content:
        thinking_start = content.find("<thinking>") + 10
        thinking_end = content.find("</thinking>")
        thinking = content[thinking_start:thinking_end].strip()
        final_answer = content[thinking_end + 12:].strip()
        return {"thinking": ..., "answer": ..., "full_response": content}
    return content

Inside the branch both `find` calls succeed, so `getD 0` never supplies its
default.  Note the source's `+ 12` even though `"</thinking>"` has 11
characters. -/
def extractReasoning (content : List Char) (show_thinking : Bool) : TripSplit :=
  if show_thinking && containsSub content openTag && containsSub content closeTag then
    let thinking_start := (strFind content openTag).getD 0 + 10
    let thinking_end := (strFind content closeTag).getD 0
    let thinking := pyStrip ((content.drop thinking_start).take (thinking_end - thinking_start))
    let final_answer := pyStrip (content.drop (thinking_end + 12))
    TripSplit.structured thinking final_answer content
  else
    TripSplit.plain content

/-- `plan_trip_with_reasoning` over an injected transport: the `try` body
sends one request and post-processes it with `extractReasoning`; the
`except` block catches any transport error and returns `None`.  The outer
`Except` layer records that the function itself never raises. -/
def plan_trip_with_reasoning (transport : Except TransportError (List Char))
    (show_thinking : Bool) : Except TransportError (Option TripSplit) :=
  match transport with
  | Except.error _ => Except.ok none
  | Except.ok content => Except.ok (some (extractReasoning content show_thinking))

/-- One transport invocation: hands back the response for call number
`calls` and bumps the invocation counter. -/
def invokeTransport (t : Nat → Except TransportError (List Char)) (calls : Nat) :
    Except TransportError (List Char) × Nat :=
  (t calls, calls + 1)

/-- `plan_trip_with_reasoning` with an instrumented transport: the counter
starts at 0 and the straight-line body calls the transport at its single
call site, with no loop around it. -/
def plan_trip_counted (t : Nat → Except TransportError (List Char))
    (show_thinking : Bool) : Except TransportError (Option TripSplit) × Nat :=
  match invokeTransport t 0 with
  | (Except.error _, calls) => (Except.ok none, calls)
  | (Except.ok content, calls) =>
    (Except.ok (some (extractReasoning content show_thinking)), calls)

/-- The full-text component of a `TripSplit`: `full_response` of the
structured dictionary, or the plain content itself. -/
def fullTextOf : TripSplit → List Char
  | TripSplit.structured _ _ full => full
  | TripSplit.plain content => content

example : strFind "abcabc".data "b".data = some 1 := by decide
example : strFind "abc".data "x".data = none := by decide
example : containsSub "<thinking>x".data openTag = true := by decide
example : pyStrip "  hi  ".data = "hi".data := by decide

/-- The index `strFind` returns is a genuine occurrence: the pattern is a
prefix of the remainder of the string from that index. -/
theorem strFind_occurs (s t : List Char) :
    ∀ j, strFind s t = some j → t <+: List.drop j s := by
  induction s with
  | nil =>
    intro j h
    unfold strFind at h
    by_cases hp : t.isPrefixOf ([] : List Char)
    · simp only [hp, if_pos] at h
      cases h
      simpa [List.isPrefixOf_iff_prefix] using hp
    · simp [hp] at h
  | cons c s' ih =>
    intro j h
    unfold strFind at h
    by_cases hp : t.isPrefixOf (c :: s')
    · simp only [hp, if_pos] at h
      cases h
      simpa [List.isPrefixOf_iff_prefix] using hp
    · simp only [hp, if_neg, Bool.false_eq_true, not_false_eq_true, Option.map_eq_some'] at h
      obtain ⟨j', hj', rfl⟩ := h
      simpa using ih j' hj'

/-- `strFind` finds the first occurrence: every index at which the pattern
occurs is at least the returned one, which exists. -/
theorem strFind_first (s t : List Char) :
    ∀ i, t <+: List.drop i s → ∃ j, strFind s t = some j ∧ j ≤ i := by
  induction s with
  | nil =>
    intro i hi
    simp only [List.drop_nil, List.prefix_nil] at hi
    subst hi
    exact ⟨0, by unfold strFind; simp [List.isPrefixOf_iff_prefix], Nat.zero_le i⟩
  | cons c s' ih =>
    intro i hi
    by_cases hp : t.isPrefixOf (c :: s')
    · exact ⟨0, by unfold strFind; simp [hp], Nat.zero_le i⟩
    · cases i with
      | zero =>
        exfalso
        exact hp (by simpa [List.isPrefixOf_iff_prefix] using hi)
      | succ i' =>
        obtain ⟨j', hj', hle⟩ := ih i' (by simpa using hi)
        refine ⟨j' + 1, ?_, Nat.succ_le_succ hle⟩
        unfold strFind
        simp [hp, hj']

/-- `containsSub` decides substring containment (`List.IsInfix`), matching
Python's `in` operator. -/
theorem containsSub_eq_true_iff (s t : List Char) :
    containsSub s t = true ↔ t <:+: s := by
  constructor
  · intro h
    unfold containsSub at h
    obtain ⟨j, hj⟩ := Option.isSome_iff_exists.mp h
    have hocc := strFind_occurs s t j hj
    exact List.infix_iff_prefix_suffix.mpr ⟨List.drop j s, hocc, List.drop_suffix j s⟩
  · intro h
    obtain ⟨u, v, huv⟩ := h
    have hocc : t <+: List.drop u.length s := by
      subst huv
      rw [List.append_assoc, List.drop_left]
      exact ⟨v, rfl⟩
    obtain ⟨j, hj, _⟩ := strFind_first s t u.length hocc
    unfold containsSub
    simp [hj]

/-- Scenario 1's raw response from the spec. -/
def kyotoRaw : List Char :=
  "<thinking>Check weather first.</thinking>Visit Kyoto in April.".data

/-- C1: on Scenario 1's input the code returns reasoning
"Check weather first." as the claim states, but the answer is
"isit Kyoto in April.", not "Visit Kyoto in April.": the source skips
`thinking_end + 12` characters although the close tag `"</thinking>"` has
only 11, dropping the first character after it. -/
theorem C1_kyoto_offByOne :
    extractReasoning kyotoRaw true =
      TripSplit.structured "Check weather first.".data "isit Kyoto in April.".data kyotoRaw ∧
    "isit Kyoto in April.".data ≠ "Visit Kyoto in April.".data := by
  exact ⟨by decide, by decide⟩

/-- The authentication failure of Scenario 5. -/
def authFailure : TransportError := ⟨"authentication failed".data⟩

/-- C2 counterexample: with a transport that raises an authentication
failure, `plan_trip_with_reasoning` returns the normal value `none`
(Python `None`) instead of propagating the `TransportError`: the `except`
block catches every exception. -/
theorem C2_error_not_propagated :
    plan_trip_with_reasoning (Except.error authFailure) true = Except.ok none ∧
    plan_trip_with_reasoning (Except.error authFailure) true ≠ Except.error authFailure := by
  refine ⟨rfl, ?_⟩
  intro h
  exact Except.noConfusion h

/-- C2 amended: whenever the injected transport raises, the function
catches the error internally and returns `None` — for every transport
error and every `show_thinking` flag. -/
theorem C2_error_swallowed (e : TransportError) (show_thinking : Bool) :
    plan_trip_with_reasoning (Except.error e) show_thinking = Except.ok none := rfl

/-- An open tag that is never closed (C3's boundary case). -/
def unclosedRaw : List Char := "<thinking>abc".data

/-- C3 counterexample: on `"<thinking>abc"` the code returns the raw text
unchanged as a plain value, not the claimed structured result with
reasoning "abc" and empty answer — the `if` requires both tags, so a
missing close tag skips extraction entirely. -/
theorem C3_unclosed_counterexample :
    extractReasoning unclosedRaw true = TripSplit.plain unclosedRaw ∧
    extractReasoning unclosedRaw true ≠
      TripSplit.structured "abc".data ([] : List Char) unclosedRaw := by
  exact ⟨by decide, by decide⟩

/-- C3 amended: for every raw response that contains the open tag but no
occurrence of the close tag anywhere, the function returns the raw text
unchanged as a plain result — no reasoning is extracted. -/
theorem C3_unclosed_plain (raw : List Char) (_hopen : openTag <:+: raw)
    (hclose : ¬ closeTag <:+: raw) : extractReasoning raw true = TripSplit.plain raw := by
  have hc : containsSub raw closeTag = false := by
    rcases h : containsSub raw closeTag with _ | _
    · rfl
    · exact absurd ((containsSub_eq_true_iff raw closeTag).mp h) hclose
  unfold extractReasoning
  simp [hc]

/-- Witness for C3's amended theorem at the concrete input `"<thinking>abc"`. -/
theorem C3_unclosed_plain_witness :
    extractReasoning unclosedRaw true = TripSplit.plain unclosedRaw :=
  C3_unclosed_plain unclosedRaw (by decide) (by decide)

/-- C4 counterexample input: a close tag precedes the open tag. -/
def echoRaw : List Char := "</thinking><thinking>R</thinking>A".data

/-- C4 counterexample: the code locates the close tag with `find` from the
start of the string, so on `"</thinking><thinking>R</thinking>A"` it uses
the close tag at index 0 — which precedes the open tag — and produces
reasoning "" and answer "thinking>R</thinking>A"; locating the first close
tag at or after the end of the open tag, as the claim states, would give
reasoning "R" and answer "A". -/
theorem C4_close_before_open :
    extractReasoning echoRaw true =
      TripSplit.structured ([] : List Char) "thinking>R</thinking>A".data echoRaw ∧
    extractReasoning echoRaw true ≠
      TripSplit.structured "R".data "A".data echoRaw := by
  exact ⟨by decide, by decide⟩

/-- C4 amended: when both tags occur, the splitter uses the first
occurrence of the open tag and the first occurrence of the close tag
counting from the start of the whole string — never a later occurrence of
either — and the close-tag occurrence used may precede the open tag; the
result is built from those two minimal indices. -/
theorem C4_first_occurrences (raw : List Char) (hopen : openTag <:+: raw)
    (hclose : closeTag <:+: raw) :
    ∃ oi ci, strFind raw openTag = some oi ∧ strFind raw closeTag = some ci ∧
      openTag <+: List.drop oi raw ∧ closeTag <+: List.drop ci raw ∧
      (∀ k, openTag <+: List.drop k raw → oi ≤ k) ∧
      (∀ k, closeTag <+: List.drop k raw → ci ≤ k) ∧
      extractReasoning raw true =
        TripSplit.structured
          (pyStrip ((raw.drop (oi + 10)).take (ci - (oi + 10))))
          (pyStrip (raw.drop (ci + 12))) raw := by
  have ho : containsSub raw openTag = true := (containsSub_eq_true_iff raw openTag).mpr hopen
  have hc : containsSub raw closeTag = true := (containsSub_eq_true_iff raw closeTag).mpr hclose
  obtain ⟨oi, hoi⟩ := Option.isSome_iff_exists.mp ho
  obtain ⟨ci, hci⟩ := Option.isSome_iff_exists.mp hc
  refine ⟨oi, ci, hoi, hci, strFind_occurs raw openTag oi hoi,
    strFind_occurs raw closeTag ci hci, ?_, ?_, ?_⟩
  · intro k hk
    obtain ⟨j, hj, hle⟩ := strFind_first raw openTag k hk
    rw [hoi, Option.some_inj] at hj
    exact hj ▸ hle
  · intro k hk
    obtain ⟨j, hj, hle⟩ := strFind_first raw closeTag k hk
    rw [hci, Option.some_inj] at hj
    exact hj ▸ hle
  · simp [extractReasoning, ho, hc, hoi, hci]

/-- Witness for C4's amended theorem at Scenario 1's input. -/
theorem C4_first_occurrences_witness :
    (openTag <:+: kyotoRaw) ∧ (closeTag <:+: kyotoRaw) ∧
    (∃ oi ci, strFind kyotoRaw openTag = some oi ∧ strFind kyotoRaw closeTag = some ci ∧
      openTag <+: List.drop oi kyotoRaw ∧ closeTag <+: List.drop ci kyotoRaw ∧
      (∀ k, openTag <+: List.drop k kyotoRaw → oi ≤ k) ∧
      (∀ k, closeTag <+: List.drop k kyotoRaw → ci ≤ k) ∧
      extractReasoning kyotoRaw true =
        TripSplit.structured
          (pyStrip ((kyotoRaw.drop (oi + 10)).take (ci - (oi + 10))))
          (pyStrip (kyotoRaw.drop (ci + 12))) kyotoRaw) :=
  ⟨by decide, by decide, C4_first_occurrences kyotoRaw (by decide) (by decide)⟩

/-- C6: in every branch of the extraction — structured result or plain —
the full-text component equals the original raw response unchanged. -/
theorem C6_fullText_preserved (raw : List Char) (show_thinking : Bool) :
    fullTextOf (extractReasoning raw show_thinking) = raw := by
  unfold extractReasoning
  split
  · rfl
  · rfl

/-- C7: a raw response containing no occurrence of the open tag is returned
unchanged: the answer is the entire raw text and no reasoning is extracted. -/
theorem C7_no_openTag_plain (raw : List Char) (h : ¬ openTag <:+: raw) :
    extractReasoning raw true = TripSplit.plain raw := by
  have ho : containsSub raw openTag = false := by
    rcases hx : containsSub raw openTag with _ | _
    · rfl
    · exact absurd ((containsSub_eq_true_iff raw openTag).mp hx) h
  unfold extractReasoning
  simp [ho]

/-- Witness for C7 at Scenario 2's input `"Just a plain answer, no tags."`. -/
theorem C7_no_openTag_plain_witness :
    extractReasoning "Just a plain answer, no tags.".data true =
      TripSplit.plain "Just a plain answer, no tags.".data :=
  C7_no_openTag_plain "Just a plain answer, no tags.".data (by decide)

/-- C9: with `show_thinking = false` (the source's default) the raw text
is returned unchanged, tags included; a structured result arises exactly
when `show_thinking` is `true` and both tags occur in the text. -/
theorem C9_show_thinking_gate (raw : List Char) (show_thinking : Bool) :
    plan_trip_with_reasoning (Except.ok raw) false =
      Except.ok (some (TripSplit.plain raw)) ∧
    ((∃ th an, extractReasoning raw show_thinking = TripSplit.structured th an raw) ↔
      (show_thinking = true ∧ openTag <:+: raw ∧ closeTag <:+: raw)) := by
  constructor
  · show Except.ok (some (extractReasoning raw false)) = _
    unfold extractReasoning
    simp
  · by_cases h :
        (show_thinking && containsSub raw openTag && containsSub raw closeTag) = true
    · have hparts := h
      rw [Bool.and_eq_true, Bool.and_eq_true] at hparts
      constructor
      · intro _
        exact ⟨hparts.1.1, (containsSub_eq_true_iff raw openTag).mp hparts.1.2,
          (containsSub_eq_true_iff raw closeTag).mp hparts.2⟩
      · intro _
        refine ⟨pyStrip ((raw.drop ((strFind raw openTag).getD 0 + 10)).take
            ((strFind raw closeTag).getD 0 - ((strFind raw openTag).getD 0 + 10))),
          pyStrip (raw.drop ((strFind raw closeTag).getD 0 + 12)), ?_⟩
        unfold extractReasoning
        rw [if_pos h]
    · constructor
      · intro ⟨th, an, hx⟩
        unfold extractReasoning at hx
        rw [if_neg (by simpa using h)] at hx
        exact TripSplit.noConfusion hx
      · intro ⟨hs, hopen, hclose⟩
        exact absurd (by
          rw [hs, (containsSub_eq_true_iff raw openTag).mpr hopen,
            (containsSub_eq_true_iff raw closeTag).mpr hclose]
          rfl) h

/-- C8: every call performs exactly one transport invocation — the counter
ends at 1 for every transport and flag — and the outcome is that of the
plain function on the first (and only) response: no retry, no cache. -/
theorem C8_single_invocation (t : Nat → Except TransportError (List Char))
    (show_thinking : Bool) :
    (plan_trip_counted t show_thinking).2 = 1 ∧
    (plan_trip_counted t show_thinking).1 = plan_trip_with_reasoning (t 0) show_thinking := by
  rcases h : t 0 with e | content <;>
    simp [plan_trip_counted, invokeTransport, plan_trip_with_reasoning, h]

/-! ### Template Renderer (spec §4.1)

The notebook `chat_with_template` (part_001, lines 170-190) inlines Python's
`str.format`, whose implementation is not part of the repository; the
renderer below is modelled from the spec's words. -/

/-- Modelled from the spec: the Template Renderer of §4.1 — missing from the
repository, which delegates to Python `str.format`.  One left-to-right scan
of the template: outside a placeholder (`inName = false`) literal characters
are copied unchanged; a `{` opens a placeholder whose name is accumulated
(reversed, in `acc`) until the closing `}`; the name is then looked up in
the bindings, and the first unbound name aborts the scan with a
`MissingBindingError` carrying that name (the `Except.error` value).  A
template ending inside an unterminated placeholder treats the remainder as
the name. -/
def renderAux (bindings : List (List Char × List Char)) :
    List Char → Bool → List Char → Except (List Char) (List Char)
  | [], false, _ => Except.ok []
  | [], true, acc =>
    match bindings.lookup acc.reverse with
    | some v => Except.ok v
    | none => Except.error acc.reverse
  | c :: rest, false, _ =>
    if c = '{' then renderAux bindings rest true []
    else (renderAux bindings rest false []).map (fun out => c :: out)
  | c :: rest, true, acc =>
    if c = '}' then
      match bindings.lookup acc.reverse with
      | some v => (renderAux bindings rest false []).map (fun out => v ++ out)
      | none => Except.error acc.reverse
    else renderAux bindings rest true (c :: acc)

/-- Modelled from the spec: `render(template, bindings)` of §4.1. -/
def render (template : List Char) (bindings : List (List Char × List Char)) :
    Except (List Char) (List Char) :=
  renderAux bindings template false []

/-- The placeholder names of a template, in left-to-right scan order —
the same scan `renderAux` performs, recording names instead of rendering. -/
def scanNamesAux : List Char → Bool → List Char → List (List Char)
  | [], false, _ => []
  | [], true, acc => [acc.reverse]
  | c :: rest, false, _ =>
    if c = '{' then scanNamesAux rest true [] else scanNamesAux rest false []
  | c :: rest, true, acc =>
    if c = '}' then acc.reverse :: scanNamesAux rest false []
    else scanNamesAux rest true (c :: acc)

/-- The placeholder names of a template in scan order. -/
def placeholderNames (template : List Char) : List (List Char) :=
  scanNamesAux template false []

/-- The first placeholder of the template with no binding, in scan order. -/
def firstUnbound (template : List Char)
    (bindings : List (List Char × List Char)) : Option (List Char) :=
  (placeholderNames template).find? (fun n => (bindings.lookup n).isNone)

example : placeholderNames "Hello {name}, goal: {goal}.".data =
    ["name".data, "goal".data] := by decide
example : render "Hello {name}, goal: {goal}.".data
    [("name".data, "Jordan".data), ("goal".data, "endurance".data)] =
    Except.ok "Hello Jordan, goal: endurance.".data := rfl

/-- The renderer and the name scan agree, from any scan state: the render
fails exactly on the first scanned name with no binding, and succeeds when
every scanned name is bound. -/
theorem renderAux_firstUnbound (bindings : List (List Char × List Char))
    (cs : List Char) : ∀ (inName : Bool) (acc : List Char),
    (∀ n, (scanNamesAux cs inName acc).find? (fun m => (bindings.lookup m).isNone) = some n →
      renderAux bindings cs inName acc = Except.error n) ∧
    ((scanNamesAux cs inName acc).find? (fun m => (bindings.lookup m).isNone) = none →
      ∃ out, renderAux bindings cs inName acc = Except.ok out) := by
  induction cs with
  | nil =>
    intro inName acc
    cases inName with
    | false => exact ⟨fun n h => by simp [scanNamesAux] at h,
        fun _ => ⟨[], by simp [renderAux]⟩⟩
    | true =>
      rcases hb : bindings.lookup acc.reverse with _ | v
      · constructor
        · intro n h
          rw [show scanNamesAux [] true acc = [acc.reverse] from rfl,
            List.find?_cons_of_pos _ (by simp [hb])] at h
          cases h
          simp [renderAux, hb]
        · intro h
          rw [show scanNamesAux [] true acc = [acc.reverse] from rfl,
            List.find?_cons_of_pos _ (by simp [hb])] at h
          cases h
      · constructor
        · intro n h
          rw [show scanNamesAux [] true acc = [acc.reverse] from rfl,
            List.find?_cons_of_neg _ (by simp [hb]), List.find?_nil] at h
          cases h
        · intro _
          exact ⟨v, by simp [renderAux, hb]⟩
  | cons c rest ih =>
    intro inName acc
    cases inName with
    | false =>
      by_cases hc : c = '{'
      · constructor
        · intro n h
          rw [show scanNamesAux (c :: rest) false acc = scanNamesAux rest true [] by
            simp [scanNamesAux, hc]] at h
          have := (ih true []).1 n h
          simpa [renderAux, hc] using this
        · intro h
          rw [show scanNamesAux (c :: rest) false acc = scanNamesAux rest true [] by
            simp [scanNamesAux, hc]] at h
          obtain ⟨out, hout⟩ := (ih true []).2 h
          exact ⟨out, by simpa [renderAux, hc] using hout⟩
      · constructor
        · intro n h
          rw [show scanNamesAux (c :: rest) false acc = scanNamesAux rest false [] by
            simp [scanNamesAux, hc]] at h
          have := (ih false []).1 n h
          simp [renderAux, hc, this, Except.map]
        · intro h
          rw [show scanNamesAux (c :: rest) false acc = scanNamesAux rest false [] by
            simp [scanNamesAux, hc]] at h
          obtain ⟨out, hout⟩ := (ih false []).2 h
          exact ⟨c :: out, by simp [renderAux, hc, hout, Except.map]⟩
    | true =>
      by_cases hc : c = '}'
      · rcases hb : bindings.lookup acc.reverse with _ | v
        · constructor
          · intro n h
            rw [show scanNamesAux (c :: rest) true acc =
                acc.reverse :: scanNamesAux rest false [] by simp [scanNamesAux, hc],
              List.find?_cons_of_pos _ (by simp [hb])] at h
            cases h
            simp [renderAux, hc, hb]
          · intro h
            rw [show scanNamesAux (c :: rest) true acc =
                acc.reverse :: scanNamesAux rest false [] by simp [scanNamesAux, hc],
              List.find?_cons_of_pos _ (by simp [hb])] at h
            cases h
        · constructor
          · intro n h
            rw [show scanNamesAux (c :: rest) true acc =
                acc.reverse :: scanNamesAux rest false [] by simp [scanNamesAux, hc],
              List.find?_cons_of_neg _ (by simp [hb])] at h
            have := (ih false []).1 n h
            simp [renderAux, hc, hb, this, Except.map]
          · intro h
            rw [show scanNamesAux (c :: rest) true acc =
                acc.reverse :: scanNamesAux rest false [] by simp [scanNamesAux, hc],
              List.find?_cons_of_neg _ (by simp [hb])] at h
            obtain ⟨out, hout⟩ := (ih false []).2 h
            exact ⟨v ++ out, by simp [renderAux, hc, hb, hout, Except.map]⟩
      · constructor
        · intro n h
          rw [show scanNamesAux (c :: rest) true acc =
              scanNamesAux rest true (c :: acc) by simp [scanNamesAux, hc]] at h
          have := (ih true (c :: acc)).1 n h
          simpa [renderAux, hc] using this
        · intro h
          rw [show scanNamesAux (c :: rest) true acc =
              scanNamesAux rest true (c :: acc) by simp [scanNamesAux, hc]] at h
          obtain ⟨out, hout⟩ := (ih true (c :: acc)).2 h
          exact ⟨out, by simpa [renderAux, hc] using hout⟩

/-- C5: rendering a template with an unbound placeholder fails with
`MissingBindingError` naming exactly the first unbound placeholder in
left-to-right scan order; with a complete binding set (no unbound
placeholder) it never fails. -/
theorem C5_render_first_unbound (template : List Char)
    (bindings : List (List Char × List Char)) :
    (∀ n, firstUnbound template bindings = some n →
      render template bindings = Except.error n) ∧
    (firstUnbound template bindings = none →
      ∃ out, render template bindings = Except.ok out) :=
  renderAux_firstUnbound bindings template false []

/-- Scenario 4's template. -/
def helloTemplate : List Char := "Hello {name}.".data

/-- Witness for C5 at Scenario 4: template `"Hello {name}."` with empty
bindings fails with `MissingBindingError("name")`. -/
theorem C5_render_witness :
    firstUnbound helloTemplate [] = some "name".data ∧
    render helloTemplate [] = Except.error "name".data :=
  ⟨by decide, (C5_render_first_unbound helloTemplate []).1 "name".data (by decide)⟩

/-! ### Health-tip retrieval (part_004, `retrieve_tips`) -/

/-- Python `str.lower()` (the tip contents and queries here are ASCII). -/
def pyLower (cs : List Char) : List Char := cs.map Char.toLower

/-- Python argumentless `str.split()`: splits on runs of whitespace and
never yields empty words; `cur` accumulates the current word reversed. -/
def pyWordsAux : List Char → List Char → List (List Char)
  | [], cur => if cur = [] then [] else [cur.reverse]
  | c :: rest, cur =>
    if c.isWhitespace then
      if cur = [] then pyWordsAux rest [] else cur.reverse :: pyWordsAux rest []
    else pyWordsAux rest (c :: cur)

/-- Python `s.split()`. -/
def pyWords (cs : List Char) : List (List Char) := pyWordsAux cs []

/-- One entry of the notebook's `health_tips` list. -/
structure HealthTip where
  id : List Char
  content : List Char
  source : List Char
deriving DecidableEq

/-- The five sample health tips of the agent notebook. -/
def health_tips : List HealthTip :=
  [⟨"tip1".data, "Do a 10-minute HIIT workout to boost your metabolism.".data,
    "Fitness Guru".data⟩,
   ⟨"tip2".data,
    "Take a brisk 15-minute walk to clear your mind and improve circulation.".data,
    "Health Coach".data⟩,
   ⟨"tip3".data, "Stretch for 5 minutes every hour if you're sitting at a desk.".data,
    "Wellness Expert".data⟩,
   ⟨"tip4".data, "Incorporate strength training twice a week for overall fitness.".data,
    "Personal Trainer".data⟩,
   ⟨"tip5".data, "Drink water regularly to stay hydrated during workouts.".data,
    "Nutritionist".data⟩]

/-- The f-string `f"Source: {tip['source']} => {tip['content']}"`. -/
def tipLine (t : HealthTip) : List Char :=
  "Source: ".data ++ t.source ++ " => ".data ++ t.content

/-- `any(word in tip["content"].lower() for word in query_lower.split())`. -/
def tipMatches (query_lower : List Char) (t : HealthTip) : Bool :=
  (pyWords query_lower).any (fun w => containsSub (pyLower t.content) w)

/-- `retrieve_tips` (part_004, lines 86-97): lowercase the query, keep the
tips one of whose lowercased contents contains some query word, fall back
to all five tips when none matches, and join the formatted lines with
newlines. -/
def retrieve_tips (query : List Char) : List Char :=
  let query_lower := pyLower query
  let relevant := health_tips.foldr
    (fun tip acc => if tipMatches query_lower tip then tipLine tip :: acc else acc) []
  List.intercalate "\n".data
    (if relevant = [] then health_tips.map tipLine else relevant)

example : retrieve_tips "water".data =
    ("Source: Nutritionist => Drink water regularly to stay hydrated during workouts.".data) := by
  decide

/-- The conditional-`cons` fold of the source's `for` loop builds exactly
the filtered, formatted list. -/
theorem foldr_if_cons_eq_filter_map {α β : Type} (p : α → Bool) (f : α → β)
    (l : List α) :
    l.foldr (fun x acc => if p x then f x :: acc else acc) [] =
      (l.filter p).map f := by
  induction l with
  | nil => rfl
  | cons x xs ih => by_cases h : p x <;> simp [List.filter_cons, h, ih]

/-- Every `tipLine` starts with `"Source: "`, hence is non-empty. -/
theorem tipLine_ne_nil (t : HealthTip) : tipLine t ≠ [] := by
  unfold tipLine
  intro h
  rcases List.append_eq_nil.mp h with ⟨h', -⟩
  rcases List.append_eq_nil.mp h' with ⟨h'', -⟩
  rcases List.append_eq_nil.mp h'' with ⟨h3, -⟩
  exact absurd h3 (by decide)

/-- Joining a list whose head is non-empty is non-empty. -/
theorem intercalate_cons_ne_nil {α : Type} (sep a : List α)
    (rest : List (List α)) (ha : a ≠ []) :
    List.intercalate sep (a :: rest) ≠ [] := by
  cases rest with
  | nil =>
    show a ++ [] ≠ []
    simpa using ha
  | cons b t =>
    show a ++ _ ≠ []
    intro h
    exact ha (List.append_eq_nil.mp h).1

/-- C10: `retrieve_tips` always returns a non-empty string; its output is
the newline-join of the formatted tips whose lowercased content contains
some whitespace-separated word of the lowercased query, and when no tip
matches it falls back to all five tips joined by newlines. -/
theorem C10_retrieve_tips (query : List Char) :
    retrieve_tips query ≠ [] ∧
    retrieve_tips query =
      List.intercalate "\n".data
        ((if health_tips.filter (tipMatches (pyLower query)) = []
          then health_tips
          else health_tips.filter (tipMatches (pyLower query))).map tipLine) := by
  have hfold : health_tips.foldr
      (fun tip acc => if tipMatches (pyLower query) tip then tipLine tip :: acc else acc)
      [] = (health_tips.filter (tipMatches (pyLower query))).map tipLine :=
    foldr_if_cons_eq_filter_map (tipMatches (pyLower query)) tipLine health_tips
  have hdef : retrieve_tips query =
      List.intercalate "\n".data
        (if (health_tips.filter (tipMatches (pyLower query))).map tipLine = []
         then health_tips.map tipLine
         else (health_tips.filter (tipMatches (pyLower query))).map tipLine) := by
    unfold retrieve_tips
    simp only [hfold]
  constructor
  · rw [hdef]
    by_cases hfil : health_tips.filter (tipMatches (pyLower query)) = []
    · rw [hfil]
      simp only [List.map_nil, if_pos]
      decide
    · obtain ⟨t, ts, hts⟩ : ∃ t ts,
          health_tips.filter (tipMatches (pyLower query)) = t :: ts := by
        rcases hx : health_tips.filter (tipMatches (pyLower query)) with _ | ⟨t, ts⟩
        · exact absurd hx hfil
        · exact ⟨t, ts, rfl⟩
      rw [hts]
      rw [if_neg (by simp)]
      simp only [List.map_cons]
      exact intercalate_cons_ne_nil _ _ _ (tipLine_ne_nil t)
  · rw [hdef, apply_ite (List.map tipLine)]
    congr 1
    simp [List.map_eq_nil_iff]

end FoundryLab
